import Mathlib

/-!
Shallow embedding of djangorestframework/resources.py (FormResource and
ModelResource validation) together with proofs about the claims of the
specification.

Request data and files are modelled as association lists from string keys to
string values; a Python dict assignment is `dictInsert` (replace the first
occurrence of the key, else append).  A bound Django form is modelled as the
opaque record `BoundForm` exposing exactly the capabilities the engine reads:
its declared field names, `is_valid()`, `cleaned_data`, `errors` and
`non_field_errors()`.  A form class is an arbitrary function from data and
files to a `BoundForm`; raising `ErrorResponse(400, detail)` is modelled as
the `Except.error` branch carrying the status and the detail record.
-/

/-- A Python mapping from string keys to string values, as an association
list in insertion order.  Dicts built by the code never hold duplicate
keys. -/
abbrev Data := List (String × String)

/-- The key set of a mapping. -/
def keysOf (d : Data) : Finset String := (d.map Prod.fst).toFinset

/-- The key list of an association list (first components, in order). -/
def dkeys {β : Type} (d : List (String × β)) : List String := d.map Prod.fst

/-- Python dict assignment `d[k] = v`: replace the value at the first
occurrence of `k`, keeping its position, else append a new entry. -/
def dictInsert {β : Type} (d : List (String × β)) (k : String) (v : β) :
    List (String × β) :=
  match d with
  | [] => [(k, v)]
  | p :: rest => if p.1 = k then (k, v) :: rest else p :: dictInsert rest k v

/-- A Django form bound to request data, as the opaque capability the
validation engine consumes: declared fields, validity, cleaned data and the
two error views.  Error messages are already strings in the embedding, so
the `map(unicode, val)` coercion of the source is the identity. -/
structure BoundForm where
  fields : List String
  is_valid : Bool
  cleaned_data : Data
  errors : List (String × List String)
  non_field_errors : List String
deriving DecidableEq, Repr

/-- Configuration of a `FormResource`: the resolved form class (the result of
`get_form_class`, already accounting for view and method overrides), or
`none` when no form is configured, plus the `allow_unknown_form_fields`
flag. -/
structure FormResourceCfg where
  form : Option (Data → Option Data → BoundForm)
  allow_unknown_form_fields : Bool

/-- `FormResource.get_bound_form`: `None` when no form class is resolved,
otherwise the form class applied to the data and files.  The engine always
passes an actual mapping for `data`, so the unbound `form()` branch of the
source is unreachable here. -/
def FormResourceCfg.get_bound_form (res : FormResourceCfg) (data : Data)
    (files : Option Data) : Option BoundForm :=
  res.form.map (fun f => f data files)

/-- The fixed reserved transport keys excluded from unknown-field
detection. -/
def reservedKeys : Finset String := {"csrfmiddlewaretoken", "_accept", "_method"}

/-- Lines 131-132: `seen - (form | allowed)` then minus the reserved
transport keys. -/
def unknownFields (data : Data) (form_fields : List String)
    (allowed : Finset String) : Finset String :=
  (keysOf data \ (form_fields.toFinset ∪ allowed)) \ reservedKeys

/-- Lines 140-141: copy the raw input value through into the cleaned data
for every key in `(allowed_extra_fields_set & seen_fields_set) - set(cleaned_data.keys())`.
The source iterates over a set and assigns into a dict; appending the
filtered entries of `data` yields the same mapping. -/
def extendCleaned (cleaned : Data) (data : Data) (allowed : Finset String) :
    Data :=
  cleaned ++ data.filter (fun p => decide (p.1 ∈ allowed ∧ p.1 ∉ dkeys cleaned))

/-- The structured failure detail: a dict optionally holding the keys
`errors` and `field_errors`. -/
structure ErrorDetail where
  errors : Option (List String)
  field_errors : Option (List (String × List String))
deriving DecidableEq, Repr

/-- The generic detail of the second ambiguous-empty attempt (line 156). -/
def genericDetail : ErrorDetail :=
  { errors := some ["No content was supplied."], field_errors := none }

/-- Python `str.startswith`, modelled as a character-list test so that it
computes by kernel reduction; it agrees with the library string test. -/
def strStartsWith (s pre : String) : Bool := pre.data.isPrefixOf s.data

/-- The non-field errors of the detail (lines 160-161): present only when
non-empty. -/
def buildDetailErrors (bound_form : BoundForm) : Option (List String) :=
  if bound_form.non_field_errors = [] then none
  else some bound_form.non_field_errors

/-- Lines 164-169: the form errors without keys carrying the internal
`__` marker. -/
def fieldErrorsBase (bound_form : BoundForm) : List (String × List String) :=
  bound_form.errors.filter (fun p => !strStartsWith p.1 "__")

/-- Lines 171-173: one does-not-exist entry per unknown field, assigned
into the field-error dict.  The source iterates over the unknown set; the
embedding iterates over the input keys restricted to that set, which
produces the same mapping. -/
def fieldErrorsAll (bound_form : BoundForm) (data : Data)
    (unknown : Finset String) : List (String × List String) :=
  ((dkeys data).filter (fun k => decide (k ∈ unknown))).foldl
    (fun acc k => dictInsert acc k ["This field does not exist."])
    (fieldErrorsBase bound_form)

/-- Lines 158-176: the detail built on the normal failure path; either key
is omitted when its content is empty. -/
def buildDetail (bound_form : BoundForm) (data : Data)
    (unknown : Finset String) : ErrorDetail :=
  { errors := buildDetailErrors bound_form,
    field_errors :=
      if fieldErrorsAll bound_form data unknown = [] then none
      else some (fieldErrorsAll bound_form data unknown) }

/-- Result of one evaluation of lines 134-176 for a given bound form:
success with the cleaned data, the ambiguous empty-error case of line 148,
or the normal failure detail. -/
inductive PassResult where
  | ok (cleaned : Data)
  | ambiguous
  | fail (detail : ErrorDetail)
deriving DecidableEq, Repr

/-- Lines 126-176 for one bound form: classify keys, evaluate validity,
and produce success, the ambiguous case, or the failure detail. -/
def validatePass (allow_unknown_form_fields : Bool) (bound_form : BoundForm)
    (data : Data) (allowed : Finset String) : PassResult :=
  if bound_form.is_valid = true ∧
      (allow_unknown_form_fields = true ∨
        unknownFields data bound_form.fields allowed = ∅) then
    .ok (extendCleaned bound_form.cleaned_data data allowed)
  else if bound_form.errors = [] ∧
      unknownFields data bound_form.fields allowed = ∅ then
    .ambiguous
  else
    .fail (buildDetail bound_form data
      (unknownFields data bound_form.fields allowed))

/-- The outcome of one call frame of `_validate` apart from the retry
decision: either a finished outcome (success value or raised detail)
together with the bound form assigned to the view, or the request for the
sentinel retry of line 153, carrying the bound form, the local data and the
local files that the recursive call receives. -/
inductive FrameOut where
  | done (outcome : Except (Nat × ErrorDetail) Data) (viewSet : Option BoundForm)
  | needsRetry (bound_form : BoundForm) (dataLocal : Data) (filesLocal : Data)

/-- Lines 116-176 of one call of `_validate`, after the fake-data
injection: bind the form (returning the data unchanged when no form is
configured, line 119), assign the bound form to the view (line 121),
normalize data and files (lines 123-124), and run the classification of
`validatePass`.  The ambiguous case is reported to the caller, which
decides between the retry of line 153 and the generic detail of
line 156. -/
def validateFrame (res : FormResourceCfg) (data : Data) (files : Option Data)
    (allowed : Finset String) : FrameOut :=
  match res.get_bound_form data files with
  | none => .done (.ok data) none
  | some bound_form =>
    let dataL := if data = [] then [] else data
    let filesL := files.getD []
    match validatePass res.allow_unknown_form_fields bound_form dataL allowed with
    | .ok c => .done (.ok c) (some bound_form)
    | .fail d => .done (.error (400, d)) (some bound_form)
    | .ambiguous => .needsRetry bound_form dataL filesL

deriving instance DecidableEq for Except

/-- Result of a full `_validate` call: the outcome (cleaned data or the
raised `ErrorResponse`), the number of `get_bound_form` binding attempts,
the last bound form assigned to `view.bound_form_instance` (`none` when the
view was never written), and the final value of the data mapping object the
caller passed in (Python mutates it in place when the sentinel is injected
into a non-empty mapping). -/
structure VResult where
  outcome : Except (Nat × ErrorDetail) Data
  attempts : Nat
  viewSet : Option BoundForm
  argFinal : Data
deriving DecidableEq, Repr

/-- Lines 96-179: `FormResource._validate`, with the recursion of line 153
embedded as written.  `fake` is the `fake_data` argument: `none` on the
first attempt; when set, the sentinel key is written into the data mapping
and added to `allowed_extra_fields` (lines 112-114), and the ambiguous
branch finalizes with the generic detail instead of recursing
(lines 152-156).  The `data and data or` normalization means the caller
sees the sentinel only when its mapping was non-empty. -/
def FormResourceCfg.validateAux (res : FormResourceCfg) (data : Data)
    (files : Option Data) (allowed : Finset String) (fake : Option String) :
    VResult :=
  match fake with
  | some k =>
    let data1 := dictInsert data k "_fake_data"
    let allowed1 := insert k allowed
    match validateFrame res data1 files allowed1 with
    | .done o v => ⟨o, 1, v, data1⟩
    | .needsRetry bound_form _ _ =>
      ⟨.error (400, genericDetail), 1, some bound_form, data1⟩
  | none =>
    match validateFrame res data files allowed with
    | .done o v => ⟨o, 1, v, data⟩
    | .needsRetry bound_form dataLocal filesLocal =>
      let r := res.validateAux dataLocal (some filesLocal) allowed
        (some "_fake_data")
      ⟨r.outcome, r.attempts + 1, some (r.viewSet.getD bound_form),
        if data = [] then data else r.argFinal⟩
termination_by (if fake.isSome then 0 else 1)

/-- `FormResource.validate_request`: `_validate` with no extra allowed
fields and no fake data; only the outcome is visible to the caller. -/
def FormResourceCfg.validate_request (res : FormResourceCfg) (data : Data)
    (files : Option Data) : Except (Nat × ErrorDetail) Data :=
  (res.validateAux data files ∅ none).outcome

/-- The two-attempt unfolding of `validateAux` on a first attempt, as a
plain non-recursive function.  `validateAux_none_eq` proves it equal to the
recursive definition; concrete runs evaluate through it. -/
def validateTwo (res : FormResourceCfg) (data : Data) (files : Option Data)
    (allowed : Finset String) : VResult :=
  match validateFrame res data files allowed with
  | .done o v => ⟨o, 1, v, data⟩
  | .needsRetry bound_form dataLocal filesLocal =>
    let data1 := dictInsert dataLocal "_fake_data" "_fake_data"
    let allowed1 := insert "_fake_data" allowed
    match validateFrame res data1 (some filesLocal) allowed1 with
    | .done o v => ⟨o, 2, some (v.getD bound_form),
        if data = [] then data else data1⟩
    | .needsRetry bf2 _ _ => ⟨.error (400, genericDetail), 2, some bf2,
        if data = [] then data else data1⟩

/-- The backing model, as the introspection results the resource reads:
the names of `model._meta.fields`, the attribute names that are Python
properties (before the leading-underscore filter of line 339), and the
on-the-fly `ModelForm` synthesized from the model (line 299), as an opaque
binder; the optional `instance=self.view.model_instance` binding of
line 314 is absorbed into that binder. -/
structure ModelDesc where
  field_names : Finset String
  propertyAttrs : Finset String
  modelFormBind : Data -> Option Data -> BoundForm

/-- Configuration of a `ModelResource`: the resolved form class, the
optional backing model, and the `fields` / `exclude` / `include` class
attributes (`fields := none` models `fields = None`). -/
structure ModelResourceCfg where
  form : Option (Data -> Option Data -> BoundForm)
  model : Option ModelDesc
  allow_unknown_form_fields : Bool
  fields : Option (List String)
  exclude : List String
  «include» : List String

/-- Python truthiness of the `fields` attribute as tested by
`if self.fields:` - false for `None` and for an empty sequence. -/
def pyTruthy : Option (List String) -> Bool
  | none => false
  | some l => !l.isEmpty

/-- Lines 320-330: `ModelResource._model_fields_set`.  The discovered set
is the names of the model fields (empty when no model is configured; the
source would raise there, the resolution itself is total in the discovered
set). -/
def ModelResourceCfg._model_fields_set (m : ModelResourceCfg) : Finset String :=
  let model_fields := m.model.elim ∅ ModelDesc.field_names
  if pyTruthy m.fields then model_fields ∩ (m.fields.getD []).toFinset
  else model_fields \ m.exclude.toFinset

/-- Lines 332-344: `ModelResource._property_fields_set`.  Discovery keeps
the property attributes whose name does not start with an underscore; with
no explicit `fields`, `include` is added and `exclude` removed. -/
def ModelResourceCfg._property_fields_set (m : ModelResourceCfg) : Finset String :=
  let property_fields := (m.model.elim ∅ ModelDesc.propertyAttrs).filter
    (fun a => strStartsWith a "_" = false)
  if pyTruthy m.fields then property_fields ∩ (m.fields.getD []).toFinset
  else (property_fields ∪ m.«include».toFinset) \ m.exclude.toFinset

/-- Lines 288-318: the form class `ModelResource.get_bound_form` binds:
the explicitly configured form if present, else the on-the-fly `ModelForm`
when a model is configured, else nothing. -/
def ModelResourceCfg.effectiveForm (m : ModelResourceCfg) :
    Option (Data -> Option Data -> BoundForm) :=
  match m.form with
  | some f => some f
  | none => m.model.map ModelDesc.modelFormBind

/-- `ModelResource.get_bound_form` on actual request data. -/
def ModelResourceCfg.get_bound_form (m : ModelResourceCfg) (data : Data)
    (files : Option Data) : Option BoundForm :=
  m.effectiveForm.map (fun f => f data files)

/-- The `FormResource` engine configuration a `ModelResource` runs with. -/
def ModelResourceCfg.toFormCfg (m : ModelResourceCfg) : FormResourceCfg :=
  { form := m.effectiveForm,
    allow_unknown_form_fields := m.allow_unknown_form_fields }

/-- Lines 272-286: `ModelResource.validate_request` runs `_validate` with
`allowed_extra_fields = self._property_fields_set`. -/
def ModelResourceCfg.validate_request (m : ModelResourceCfg) (data : Data)
    (files : Option Data) : Except (Nat × ErrorDetail) Data :=
  ((m.toFormCfg).validateAux data files m._property_fields_set none).outcome

/-! ### Concrete configurations used by witnesses and counterexamples -/

/-- A bound form reporting invalid with empty error detail (the ambiguous
empty-input shape of line 148). -/
def ambiguousForm : BoundForm :=
  { fields := [], is_valid := false, cleaned_data := [], errors := [],
    non_field_errors := [] }

/-- A field-less bound form reporting valid with empty cleaned data. -/
def emptyValidForm : BoundForm :=
  { fields := [], is_valid := true, cleaned_data := [], errors := [],
    non_field_errors := [] }

/-- A form class that always reports the ambiguous invalid-empty shape. -/
def alwaysAmbiguousRes : FormResourceCfg :=
  { form := some (fun _ _ => ambiguousForm), allow_unknown_form_fields := false }

/-- A form class that is ambiguous-invalid on empty data and valid as soon
as any key is present: the sentinel rebinding turns it valid. -/
def flipFormFn : Data → Option Data → BoundForm := fun d _ =>
  if d = [] then ambiguousForm else emptyValidForm

def flipRes : FormResourceCfg :=
  { form := some flipFormFn, allow_unknown_form_fields := false }

/-- A form class that is ambiguous-invalid on empty data and reports a
required-field error once any key is present. -/
def requiredNameFormFn : Data → Option Data → BoundForm := fun d _ =>
  if d = [] then ambiguousForm
  else { fields := ["name"], is_valid := false, cleaned_data := [],
         errors := [("name", ["This field is required."])],
         non_field_errors := [] }

def requiredNameRes : FormResourceCfg :=
  { form := some requiredNameFormFn, allow_unknown_form_fields := false }

/-- A resource whose form always reports valid with no fields. -/
def emptyValidRes : FormResourceCfg :=
  { form := some (fun _ _ => emptyValidForm), allow_unknown_form_fields := false }

/-- A form with the single field `k` that always reports the ambiguous
invalid-empty shape. -/
def ambiguousKRes : FormResourceCfg :=
  { form := some (fun _ _ =>
      { fields := ["k"], is_valid := false, cleaned_data := [], errors := [],
        non_field_errors := [] }),
    allow_unknown_form_fields := false }

/-- A model resource with neither form nor model configured. -/
def noneModelRes : ModelResourceCfg :=
  { form := none, model := none, allow_unknown_form_fields := false,
    fields := none, exclude := ["id", "pk"], «include» := [] }

/-- Discovery yields fields and properties `a`, `b`. -/
def abModel : ModelDesc :=
  { field_names := {"a", "b"}, propertyAttrs := {"a", "b"},
    modelFormBind := fun _ _ => emptyValidForm }

/-- `fields` unset, `include` `c`, `exclude` `a`, discovery `a`, `b`. -/
def cx8Res : ModelResourceCfg :=
  { form := none, model := some abModel, allow_unknown_form_fields := false,
    fields := none, exclude := ["a"], «include» := ["c"] }

/-- Discovery yields `a`, `b`, `c`; explicit whitelist `b`, `d`. -/
def cx9Res : ModelResourceCfg :=
  { form := none,
    model := some { field_names := {"a", "b", "c"},
                    propertyAttrs := {"a", "b", "c"},
                    modelFormBind := fun _ _ => emptyValidForm },
    allow_unknown_form_fields := false, fields := some ["b", "d"],
    exclude := [], «include» := [] }

/-- The initial view state: no bound form instance assigned. -/
def freshView : Option BoundForm := none

/-- Applying the recorded view assignment of a validation run to a view
state: `none` leaves the view untouched, `some` overwrites
`bound_form_instance`. -/
def applyView (v : Option BoundForm) (s : Option BoundForm) :
    Option BoundForm :=
  match s with
  | none => v
  | some bf => some bf

/-! ### Association list lemmas -/

theorem lookup_cons {β : Type} (a k : String) (b : β)
    (rest : List (String × β)) :
    List.lookup k ((a, b) :: rest) =
      if k = a then some b else List.lookup k rest := by
  by_cases h : k = a
  · subst h; simp [List.lookup]
  · have hb : (k == a) = false := beq_eq_false_iff_ne.mpr h
    simp [List.lookup, hb, h]

theorem lookup_eq_none_iff {β : Type} (l : List (String × β)) (k : String) :
    List.lookup k l = none ↔ k ∉ dkeys l := by
  induction l with
  | nil => simp [dkeys]
  | cons p rest ih =>
    cases p with
    | mk a b =>
      rw [lookup_cons]
      by_cases h : k = a
      · subst h; simp [dkeys]
      · simp [dkeys, h, ih]

theorem lookup_append {β : Type} (l₁ l₂ : List (String × β)) (k : String) :
    List.lookup k (l₁ ++ l₂) = (List.lookup k l₁).or (List.lookup k l₂) := by
  induction l₁ with
  | nil => simp [List.lookup]
  | cons p rest ih =>
    cases p with
    | mk a b =>
      rw [List.cons_append, lookup_cons, lookup_cons]
      by_cases h : k = a
      · simp [h]
      · simp [h, ih]

theorem lookup_filterKey {β : Type} (l : List (String × β))
    (f : String → Bool) (k : String) :
    List.lookup k (l.filter (fun p => f p.1)) =
      if f k then List.lookup k l else none := by
  induction l with
  | nil => simp [List.lookup]
  | cons p rest ih =>
    cases p with
    | mk a b =>
      by_cases h : k = a
      · subst h
        by_cases hf : f k
        · simp [List.filter_cons, hf, lookup_cons, ih]
        · simp [List.filter_cons, hf, lookup_cons, ih]
      · by_cases hf : f a
        · simp [List.filter_cons, hf, lookup_cons, h, ih]
        · simp [List.filter_cons, hf, lookup_cons, h, ih]

theorem lookup_dictInsert_self {β : Type} (d : List (String × β)) (k : String)
    (v : β) : List.lookup k (dictInsert d k v) = some v := by
  induction d with
  | nil => simp [dictInsert, List.lookup]
  | cons p rest ih =>
    cases p with
    | mk a b =>
      by_cases h : a = k
      · subst h; simp [dictInsert, lookup_cons]
      · simp [dictInsert, h, lookup_cons, Ne.symm h, ih]

theorem lookup_dictInsert_ne {β : Type} (d : List (String × β))
    (k kk : String) (v : β) (h : k ≠ kk) :
    List.lookup k (dictInsert d kk v) = List.lookup k d := by
  induction d with
  | nil =>
    have hb : (k == kk) = false := beq_eq_false_iff_ne.mpr h
    simp [dictInsert, List.lookup, hb]
  | cons p rest ih =>
    cases p with
    | mk a b =>
      by_cases ha : a = kk
      · subst ha; simp [dictInsert, lookup_cons, h]
      · by_cases hk : k = a
        · simp [dictInsert, ha, lookup_cons, hk]
        · simp [dictInsert, ha, lookup_cons, hk, ih]

theorem mem_dictInsert {β : Type} (d : List (String × β)) (k : String)
    (v : β) (p : String × β) (h : p ∈ dictInsert d k v) :
    p ∈ d ∨ p = (k, v) := by
  induction d with
  | nil =>
    simp only [dictInsert, List.mem_singleton] at h
    exact Or.inr h
  | cons q rest ih =>
    by_cases hq : q.1 = k
    · simp only [dictInsert, if_pos hq] at h
      rcases List.mem_cons.mp h with h1 | h1
      · exact Or.inr h1
      · exact Or.inl (List.mem_cons_of_mem _ h1)
    · simp only [dictInsert, if_neg hq] at h
      rcases List.mem_cons.mp h with h1 | h1
      · exact Or.inl (by rw [h1]; exact List.mem_cons_self _ _)
      · rcases ih h1 with h2 | h2
        · exact Or.inl (List.mem_cons_of_mem _ h2)
        · exact Or.inr h2

theorem dictInsert_ne_nil {β : Type} (d : List (String × β)) (k : String)
    (v : β) : dictInsert d k v ≠ [] := by
  cases d with
  | nil => simp [dictInsert]
  | cons p rest =>
    by_cases h : p.1 = k <;> simp [dictInsert, h]

theorem keysOf_dictInsert (d : Data) (k : String) (v : String) :
    keysOf (dictInsert d k v) = insert k (keysOf d) := by
  induction d with
  | nil => simp [dictInsert, keysOf]
  | cons p rest ih =>
    by_cases h : p.1 = k
    · simp only [dictInsert, if_pos h, keysOf, List.map_cons, List.toFinset_cons]
      rw [h, Finset.insert_idem]
    · simp only [dictInsert, if_neg h, keysOf, List.map_cons, List.toFinset_cons]
      simp only [keysOf] at ih
      rw [ih, Finset.Insert.comm]

theorem lookup_foldl_insert_not_mem {β : Type} (ks : List String)
    (d : List (String × β)) (v : β) (k : String) (h : k ∉ ks) :
    List.lookup k (ks.foldl (fun acc x => dictInsert acc x v) d) =
      List.lookup k d := by
  induction ks generalizing d with
  | nil => simp
  | cons a rest ih =>
    simp only [List.foldl_cons]
    rw [ih _ (fun hm => h (List.mem_cons_of_mem _ hm)),
      lookup_dictInsert_ne _ _ _ _
        (fun he => h (by rw [he]; exact List.mem_cons_self _ _))]

theorem lookup_foldl_insert_mem {β : Type} (ks : List String)
    (d : List (String × β)) (v : β) (k : String) (h : k ∈ ks) :
    List.lookup k (ks.foldl (fun acc x => dictInsert acc x v) d) = some v := by
  induction ks generalizing d with
  | nil => simp at h
  | cons a rest ih =>
    simp only [List.foldl_cons]
    by_cases hr : k ∈ rest
    · exact ih _ hr
    · have hk : k = a := by
        rcases List.mem_cons.mp h with h1 | h1
        · exact h1
        · exact absurd h1 hr
      subst hk
      rw [lookup_foldl_insert_not_mem _ _ _ _ hr, lookup_dictInsert_self]

theorem mem_foldl_insert {β : Type} (ks : List String)
    (d : List (String × β)) (v : β) (p : String × β)
    (h : p ∈ ks.foldl (fun acc x => dictInsert acc x v) d) :
    p ∈ d ∨ p.1 ∈ ks := by
  induction ks generalizing d with
  | nil =>
    simp only [List.foldl_nil] at h
    exact Or.inl h
  | cons a rest ih =>
    simp only [List.foldl_cons] at h
    rcases ih _ h with h1 | h1
    · rcases mem_dictInsert _ _ _ _ h1 with h2 | h2
      · exact Or.inl h2
      · rw [h2]; simp
    · simp [h1]

/-! ### Unfolding the retry recursion -/

theorem validateAux_some_eq (res : FormResourceCfg) (data : Data)
    (files : Option Data) (allowed : Finset String) (k : String) :
    res.validateAux data files allowed (some k) =
      (match validateFrame res (dictInsert data k "_fake_data") files
          (insert k allowed) with
        | .done o v => ⟨o, 1, v, dictInsert data k "_fake_data"⟩
        | .needsRetry bound_form _ _ =>
          ⟨.error (400, genericDetail), 1, some bound_form,
            dictInsert data k "_fake_data"⟩) := by
  rw [FormResourceCfg.validateAux]

theorem validateAux_none_eq (res : FormResourceCfg) (data : Data)
    (files : Option Data) (allowed : Finset String) :
    res.validateAux data files allowed none = validateTwo res data files allowed := by
  rw [FormResourceCfg.validateAux, validateTwo]
  cases hf : validateFrame res data files allowed with
  | done o v => rfl
  | needsRetry bound_form dataLocal filesLocal =>
    simp only [validateAux_some_eq]
    cases hg : validateFrame res (dictInsert dataLocal "_fake_data" "_fake_data")
        (some filesLocal) (insert "_fake_data" allowed) with
    | done o v => rfl
    | needsRetry bf2 d2 f2 => rfl


/-! ### Inversion of one validation pass -/

theorem validatePass_ok_inv (allow : Bool) (bf : BoundForm) (data : Data)
    (allowed : Finset String) (c : Data)
    (h : validatePass allow bf data allowed = .ok c) :
    c = extendCleaned bf.cleaned_data data allowed ∧ bf.is_valid = true ∧
      (allow = true ∨ unknownFields data bf.fields allowed = ∅) := by
  unfold validatePass at h
  split at h
  · rename_i hc
    cases h
    exact ⟨rfl, hc.1, hc.2⟩
  · split at h <;> cases h

theorem validatePass_fail_inv (allow : Bool) (bf : BoundForm) (data : Data)
    (allowed : Finset String) (d : ErrorDetail)
    (h : validatePass allow bf data allowed = .fail d) :
    d = buildDetail bf data (unknownFields data bf.fields allowed) ∧
      ¬(bf.errors = [] ∧ unknownFields data bf.fields allowed = ∅) ∧
      ¬(bf.is_valid = true ∧
        (allow = true ∨ unknownFields data bf.fields allowed = ∅)) := by
  unfold validatePass at h
  split at h
  · cases h
  · rename_i hnc
    split at h
    · cases h
    · rename_i hne
      cases h
      exact ⟨rfl, hne, hnc⟩

theorem validatePass_ambiguous_inv (allow : Bool) (bf : BoundForm)
    (data : Data) (allowed : Finset String)
    (h : validatePass allow bf data allowed = .ambiguous) :
    bf.errors = [] ∧ unknownFields data bf.fields allowed = ∅ ∧
      ¬(bf.is_valid = true ∧
        (allow = true ∨ unknownFields data bf.fields allowed = ∅)) := by
  unfold validatePass at h
  split at h
  · cases h
  · rename_i hnc
    split at h
    · rename_i ha
      exact ⟨ha.1, ha.2, hnc⟩
    · cases h

/-! ### Claim theorems -/

/-- C1: one evaluation of lines 134-143 succeeds (returns cleaned data)
iff the bound validator is valid and either unknown form fields are allowed
or the unknown-field set is empty; in every other case it takes the failure
path (the ambiguous empty-error branch or the failure detail). -/
theorem C1_success_iff (allow : Bool) (bf : BoundForm) (data : Data)
    (allowed : Finset String) :
    ((∃ c, validatePass allow bf data allowed = .ok c) ↔
      (bf.is_valid = true ∧
        (allow = true ∨ unknownFields data bf.fields allowed = ∅))) ∧
    (¬(bf.is_valid = true ∧
        (allow = true ∨ unknownFields data bf.fields allowed = ∅)) →
      validatePass allow bf data allowed = .ambiguous ∨
        ∃ d, validatePass allow bf data allowed = .fail d) := by
  constructor
  · constructor
    · rintro ⟨c, hc⟩
      exact (validatePass_ok_inv _ _ _ _ _ hc).2
    · intro hc
      refine ⟨extendCleaned bf.cleaned_data data allowed, ?_⟩
      unfold validatePass
      rw [if_pos hc]
  · intro hc
    unfold validatePass
    rw [if_neg hc]
    by_cases ha : bf.errors = [] ∧ unknownFields data bf.fields allowed = ∅
    · rw [if_pos ha]; exact Or.inl rfl
    · rw [if_neg ha]; exact Or.inr ⟨_, rfl⟩

/-- Witness for C1 at a concrete input: an invalid bound form with empty
error detail takes the ambiguous branch. -/
theorem C1_witness :
    validatePass false
        { fields := [], is_valid := false, cleaned_data := [], errors := [],
          non_field_errors := [] } [] ∅ = .ambiguous ∨
      ∃ d, validatePass false
        { fields := [], is_valid := false, cleaned_data := [], errors := [],
          non_field_errors := [] } [] ∅ = .fail d :=
  (C1_success_iff false _ [] ∅).2 (by decide)

/-- C2: the unknown-field set is exactly keys(data) minus the union of the
schema fields and the allowed-extra set, minus the reserved technical keys;
a reserved technical key is never unknown; and on the failure path every
unknown key has the entry `field_errors[key] = ["This field does not
exist."]` in the detail. -/
theorem C2_unknown_set :
    (∀ (data : Data) (own : List String) (allowed : Finset String)
      (k : String),
      k ∈ unknownFields data own allowed ↔
        (k ∈ keysOf data ∧ k ∉ own.toFinset ∪ allowed ∧ k ∉ reservedKeys)) ∧
    (∀ (data : Data) (own : List String) (allowed : Finset String)
      (k : String), k ∈ reservedKeys → k ∉ unknownFields data own allowed) ∧
    (∀ (allow : Bool) (bf : BoundForm) (data : Data) (allowed : Finset String)
      (d : ErrorDetail) (k : String),
      validatePass allow bf data allowed = .fail d →
      k ∈ unknownFields data bf.fields allowed →
      ∃ fe, d.field_errors = some fe ∧
        List.lookup k fe = some ["This field does not exist."]) := by
  refine ⟨?_, ?_, ?_⟩
  · intro data own allowed k
    unfold unknownFields
    simp [Finset.mem_sdiff, and_assoc]
  · intro data own allowed k hk
    unfold unknownFields
    simp [Finset.mem_sdiff, hk]
  · intro allow bf data allowed d k hfail hk
    obtain ⟨hd, -⟩ := validatePass_fail_inv _ _ _ _ _ hfail
    subst hd
    have hkd : k ∈ dkeys data := by
      unfold unknownFields at hk
      simp only [Finset.mem_sdiff] at hk
      have : k ∈ keysOf data := hk.1.1
      simpa [keysOf, dkeys] using this
    have hmem : k ∈ (dkeys data).filter
        (fun x => decide (x ∈ unknownFields data bf.fields allowed)) :=
      List.mem_filter.mpr ⟨hkd, by simpa using hk⟩
    have hl : List.lookup k
        (fieldErrorsAll bf data (unknownFields data bf.fields allowed)) =
        some ["This field does not exist."] := by
      unfold fieldErrorsAll
      exact lookup_foldl_insert_mem _ _ _ _ hmem
    have hne : fieldErrorsAll bf data
        (unknownFields data bf.fields allowed) ≠ [] := by
      intro h0
      rw [h0] at hl
      simp [List.lookup] at hl
    refine ⟨_, ?_, hl⟩
    unfold buildDetail
    simp [hne]

/-- Witness for C2 at a concrete input: key `zzz` is unknown for a
field-less valid form and receives the does-not-exist entry. -/
theorem C2_witness :
    ∃ fe,
      (buildDetail
        { fields := [], is_valid := true, cleaned_data := [], errors := [],
          non_field_errors := [] } [("zzz", "1")]
        (unknownFields [("zzz", "1")] [] ∅)).field_errors = some fe ∧
      List.lookup "zzz" fe = some ["This field does not exist."] :=
  C2_unknown_set.2.2 false
    { fields := [], is_valid := true, cleaned_data := [], errors := [],
      non_field_errors := [] } [("zzz", "1")] ∅ _ "zzz" (by decide) (by decide)

theorem validateFrame_some (res : FormResourceCfg)
    (f : Data → Option Data → BoundForm) (data : Data) (files : Option Data)
    (allowed : Finset String) (hf : res.form = some f) :
    validateFrame res data files allowed =
      (match validatePass res.allow_unknown_form_fields (f data files)
          (if data = [] then [] else data) allowed with
        | .ok c => .done (.ok c) (some (f data files))
        | .fail d => .done (.error (400, d)) (some (f data files))
        | .ambiguous => .needsRetry (f data files)
            (if data = [] then [] else data) (files.getD [])) := by
  unfold validateFrame FormResourceCfg.get_bound_form
  rw [hf]
  rfl

theorem validateFrame_none (res : FormResourceCfg) (data : Data)
    (files : Option Data) (allowed : Finset String) (hf : res.form = none) :
    validateFrame res data files allowed = .done (.ok data) none := by
  unfold validateFrame FormResourceCfg.get_bound_form
  rw [hf]
  rfl

/-- C3: the sentinel retry happens at most once.  The attempt count of any
`_validate` call is at most two; a call with the sentinel already injected
performs exactly one binding attempt; and when, with the sentinel injected,
the validator is still invalid with empty error detail and no unknown
fields, the call finalizes with the generic no-content detail instead of
recursing. -/
theorem C3_single_retry :
    (∀ (res : FormResourceCfg) (data : Data) (files : Option Data)
      (allowed : Finset String) (fake : Option String),
      (res.validateAux data files allowed fake).attempts ≤ 2) ∧
    (∀ (res : FormResourceCfg) (data : Data) (files : Option Data)
      (allowed : Finset String) (k : String),
      (res.validateAux data files allowed (some k)).attempts = 1) ∧
    (∀ (res : FormResourceCfg) (f : Data → Option Data → BoundForm)
      (data : Data) (files : Option Data) (allowed : Finset String)
      (k : String),
      res.form = some f →
      validatePass res.allow_unknown_form_fields
          (f (dictInsert data k "_fake_data") files)
          (dictInsert data k "_fake_data") (insert k allowed) = .ambiguous →
      (res.validateAux data files allowed (some k)).outcome =
        .error (400, genericDetail)) := by
  have h2 : ∀ (res : FormResourceCfg) (data : Data) (files : Option Data)
      (allowed : Finset String) (k : String),
      (res.validateAux data files allowed (some k)).attempts = 1 := by
    intro res data files allowed k
    rw [validateAux_some_eq]
    cases h : validateFrame res (dictInsert data k "_fake_data") files
      (insert k allowed) <;> rfl
  refine ⟨?_, h2, ?_⟩
  · intro res data files allowed fake
    cases fake with
    | some k => rw [h2]; omega
    | none =>
      rw [validateAux_none_eq]
      unfold validateTwo
      cases h : validateFrame res data files allowed with
      | done o v => simp
      | needsRetry bf dl fl =>
        cases hg : validateFrame res (dictInsert dl "_fake_data" "_fake_data")
          (some fl) (insert "_fake_data" allowed) with
        | done o v => simp [hg]
        | needsRetry bf2 d2 f2 => simp [hg]
  · intro res f data files allowed k hf hamb
    rw [validateAux_some_eq, validateFrame_some res f _ files _ hf,
      if_neg (dictInsert_ne_nil data k "_fake_data"), hamb]

/-- Witness for C3 at a concrete input: a form that always reports the
ambiguous invalid-empty shape finalizes with the generic detail on the
sentinel attempt. -/
theorem C3_witness :
    (alwaysAmbiguousRes.validateAux [] none ∅ (some "_fake_data")).outcome =
      .error (400, genericDetail) :=
  C3_single_retry.2.2 alwaysAmbiguousRes (fun _ _ => ambiguousForm) [] none ∅
    "_fake_data" rfl (by decide)

theorem validatePass_ambiguous_intro (allow : Bool) (bf : BoundForm)
    (data : Data) (allowed : Finset String) (h1 : bf.is_valid = false)
    (h2 : bf.errors = [])
    (h3 : unknownFields data bf.fields allowed = ∅) :
    validatePass allow bf data allowed = .ambiguous := by
  unfold validatePass
  rw [if_neg, if_pos ⟨h2, h3⟩]
  rintro ⟨hv, -⟩
  rw [h1] at hv
  exact Bool.false_ne_true hv

theorem validatePass_fail_intro (allow : Bool) (bf : BoundForm)
    (data : Data) (allowed : Finset String) (h1 : bf.is_valid = false)
    (hne : ¬(bf.errors = [] ∧ unknownFields data bf.fields allowed = ∅)) :
    validatePass allow bf data allowed =
      .fail (buildDetail bf data (unknownFields data bf.fields allowed)) := by
  unfold validatePass
  rw [if_neg, if_neg hne]
  rintro ⟨hv, -⟩
  rw [h1] at hv
  exact Bool.false_ne_true hv

theorem unknownFields_nil (ff : List String) (al : Finset String) :
    unknownFields [] ff al = ∅ := by
  unfold unknownFields
  simp [keysOf]

theorem unknownFields_sentinel (ff : List String) (al : Finset String) :
    unknownFields [("_fake_data", "_fake_data")] ff
      (insert "_fake_data" al) = ∅ := by
  apply Finset.eq_empty_of_forall_not_mem
  intro k hk
  simp only [unknownFields, Finset.mem_sdiff, keysOf] at hk
  obtain ⟨⟨hk1, hk2⟩, -⟩ := hk
  simp only [List.map_cons, List.map_nil, List.toFinset_cons, List.toFinset_nil,
    Finset.mem_insert, Finset.not_mem_empty, or_false] at hk1
  subst hk1
  exact hk2 (Finset.mem_union_right _ (Finset.mem_insert_self _ _))

theorem validateTwo_done (res : FormResourceCfg) (data : Data)
    (files : Option Data) (allowed : Finset String)
    (o : Except (Nat × ErrorDetail) Data) (v : Option BoundForm)
    (h : validateFrame res data files allowed = .done o v) :
    validateTwo res data files allowed = ⟨o, 1, v, data⟩ := by
  unfold validateTwo
  rw [h]

theorem validateTwo_retry (res : FormResourceCfg) (data : Data)
    (files : Option Data) (allowed : Finset String) (bf : BoundForm)
    (dl fl : Data)
    (h : validateFrame res data files allowed = .needsRetry bf dl fl) :
    validateTwo res data files allowed =
      (match validateFrame res (dictInsert dl "_fake_data" "_fake_data")
          (some fl) (insert "_fake_data" allowed) with
        | .done o v => ⟨o, 2, some (v.getD bf),
            if data = [] then data
            else dictInsert dl "_fake_data" "_fake_data"⟩
        | .needsRetry bf2 _ _ => ⟨.error (400, genericDetail), 2, some bf2,
            if data = [] then data
            else dictInsert dl "_fake_data" "_fake_data"⟩) := by
  unfold validateTwo
  rw [h]

/-- C7: with neither form nor model configured the binding resolves to
absent and `validate_request` returns the input mapping unchanged, never
raising. -/
theorem C7_no_schema_passthrough (m : ModelResourceCfg) (data : Data)
    (files : Option Data) (h1 : m.form = none) (h2 : m.model = none) :
    m.validate_request data files = .ok data := by
  unfold ModelResourceCfg.validate_request
  rw [validateAux_none_eq, validateTwo_done _ _ _ _ _ _
    (validateFrame_none _ _ _ _ ?_)]
  · show (m.toFormCfg).form = none
    unfold ModelResourceCfg.toFormCfg ModelResourceCfg.effectiveForm
    rw [h1, h2]
    rfl

/-- Witness for C7 at a concrete input. -/
theorem C7_witness : noneModelRes.validate_request [("a", "1")] none =
    .ok [("a", "1")] :=
  C7_no_schema_passthrough noneModelRes [("a", "1")] none rfl rfl

/-- C4 counterexample: an empty mapping against a schema that reports
invalid with empty error detail and no unknown fields, yet turns valid on
the sentinel rebinding — validate returns Accepted (with the sentinel
passed through), contradicting the claim that the outcome is always
Rejected. -/
theorem C4_counterexample :
    (flipFormFn [] none).is_valid = false ∧
    (flipFormFn [] none).errors = [] ∧
    unknownFields [] (flipFormFn [] none).fields ∅ = ∅ ∧
    (flipRes.validateAux [] none ∅ none).outcome =
      .ok [("_fake_data", "_fake_data")] := by
  refine ⟨rfl, rfl, by decide, ?_⟩
  rw [validateAux_none_eq]
  decide

/-- C4 as amended: when additionally the sentinel rebinding still reports
invalid, an empty input mapping whose first binding is invalid with empty
error detail (hence without unknown fields) never yields Accepted: after
exactly one internal retry the outcome is a Rejected carrying either the
field errors surfaced by the retry or the generic no-content detail. -/
theorem C4_empty_ambiguous (res : FormResourceCfg)
    (f : Data → Option Data → BoundForm) (files : Option Data)
    (allowed : Finset String) (hf : res.form = some f)
    (h1 : (f [] files).is_valid = false)
    (h2 : (f [] files).errors = [])
    (h3 : (f [("_fake_data", "_fake_data")]
      (some (files.getD []))).is_valid = false) :
    (∀ c, (res.validateAux [] files allowed none).outcome ≠ .ok c) ∧
    (res.validateAux [] files allowed none).attempts = 2 ∧
    ((res.validateAux [] files allowed none).outcome =
        .error (400, genericDetail) ∨
      (res.validateAux [] files allowed none).outcome =
        .error (400, buildDetail
          (f [("_fake_data", "_fake_data")] (some (files.getD [])))
          [("_fake_data", "_fake_data")]
          (unknownFields [("_fake_data", "_fake_data")]
            (f [("_fake_data", "_fake_data")] (some (files.getD []))).fields
            (insert "_fake_data" allowed)))) := by
  have e1 : validateFrame res [] files allowed =
      .needsRetry (f [] files) [] (files.getD []) := by
    rw [validateFrame_some res f [] files allowed hf, if_pos rfl,
      validatePass_ambiguous_intro _ _ _ _ h1 h2 (unknownFields_nil _ _)]
  have hde : dictInsert ([] : Data) "_fake_data" "_fake_data" =
      [("_fake_data", "_fake_data")] := rfl
  rw [validateAux_none_eq, validateTwo_retry res [] files allowed _ _ _ e1, hde]
  by_cases he : (f [("_fake_data", "_fake_data")]
      (some (files.getD []))).errors = []
  · have e2 : validateFrame res [("_fake_data", "_fake_data")]
        (some (files.getD [])) (insert "_fake_data" allowed) =
        .needsRetry (f [("_fake_data", "_fake_data")] (some (files.getD [])))
          [("_fake_data", "_fake_data")] ((some (files.getD [])).getD []) := by
      rw [validateFrame_some res f _ _ _ hf,
        if_neg (by simp : ¬([("_fake_data", "_fake_data")] : Data) = []),
        validatePass_ambiguous_intro _ _ _ _ h3 he (unknownFields_sentinel _ _)]
    rw [e2]
    exact ⟨fun c hc => Except.noConfusion hc, rfl, Or.inl rfl⟩
  · have e2 : validateFrame res [("_fake_data", "_fake_data")]
        (some (files.getD [])) (insert "_fake_data" allowed) =
        .done (.error (400, buildDetail
          (f [("_fake_data", "_fake_data")] (some (files.getD [])))
          [("_fake_data", "_fake_data")]
          (unknownFields [("_fake_data", "_fake_data")]
            (f [("_fake_data", "_fake_data")] (some (files.getD []))).fields
            (insert "_fake_data" allowed))))
          (some (f [("_fake_data", "_fake_data")] (some (files.getD [])))) := by
      rw [validateFrame_some res f _ _ _ hf,
        if_neg (by simp : ¬([("_fake_data", "_fake_data")] : Data) = []),
        validatePass_fail_intro _ _ _ _ h3 (fun hc => he hc.1)]
    rw [e2]
    exact ⟨fun c hc => Except.noConfusion hc, rfl, Or.inr rfl⟩

/-- Witness for the amended C4 at a concrete input: a form that stays
invalid on the retry and surfaces a required-field error. -/
theorem C4_witness :
    (∀ c, (requiredNameRes.validateAux [] none ∅ none).outcome ≠ .ok c) ∧
    (requiredNameRes.validateAux [] none ∅ none).attempts = 2 ∧
    ((requiredNameRes.validateAux [] none ∅ none).outcome =
        .error (400, genericDetail) ∨
      (requiredNameRes.validateAux [] none ∅ none).outcome =
        .error (400, buildDetail
          (requiredNameFormFn [("_fake_data", "_fake_data")] (some []))
          [("_fake_data", "_fake_data")]
          (unknownFields [("_fake_data", "_fake_data")]
            (requiredNameFormFn [("_fake_data", "_fake_data")]
              (some [])).fields (insert "_fake_data" ∅)))) :=
  C4_empty_ambiguous requiredNameRes requiredNameFormFn none ∅ rfl
    (by decide) (by decide) (by decide)

theorem mem_keysOf (d : Data) (k : String) : k ∈ keysOf d ↔ k ∈ dkeys d := by
  simp [keysOf, dkeys]

/-- C5: on the success path the returned mapping is the bound form's
cleaned data extended, for every key in
`(allowed_extra_fields ∩ keys(data)) − keys(cleaned)`, with the raw input
value copied through verbatim; and the failure detail is a function of the
bound form and the input key list alone, so tolerated-extra values are
never merged into error detail. -/
theorem C5_passthrough :
    (∀ (allow : Bool) (bf : BoundForm) (data : Data) (allowed : Finset String)
      (c : Data), validatePass allow bf data allowed = .ok c →
      ∀ k : String,
        (k ∈ dkeys bf.cleaned_data →
          List.lookup k c = List.lookup k bf.cleaned_data) ∧
        (k ∉ dkeys bf.cleaned_data → k ∈ allowed → k ∈ keysOf data →
          List.lookup k c = List.lookup k data) ∧
        (k ∉ dkeys bf.cleaned_data → ¬(k ∈ allowed ∧ k ∈ keysOf data) →
          List.lookup k c = none)) ∧
    (∀ (allow : Bool) (bf : BoundForm) (data dataB : Data)
      (allowed : Finset String) (d : ErrorDetail),
      dkeys data = dkeys dataB →
      validatePass allow bf data allowed = .fail d →
      validatePass allow bf dataB allowed = .fail d) := by
  constructor
  · intro allow bf data allowed c hok k
    obtain ⟨hc, -, -⟩ := validatePass_ok_inv _ _ _ _ _ hok
    subst hc
    refine ⟨?_, ?_, ?_⟩
    · intro hkc
      unfold extendCleaned
      rw [lookup_append]
      cases ho : List.lookup k bf.cleaned_data with
      | none => exact absurd hkc ((lookup_eq_none_iff _ _).mp ho)
      | some v => rfl
    · intro hkc hka hkd
      unfold extendCleaned
      rw [lookup_append, (lookup_eq_none_iff _ _).mpr hkc,
        lookup_filterKey data
          (fun x => decide (x ∈ allowed ∧ x ∉ dkeys bf.cleaned_data)) k,
        if_pos (by simp [hka, hkc])]
      rfl
    · intro hkc hna
      unfold extendCleaned
      rw [lookup_append, (lookup_eq_none_iff _ _).mpr hkc,
        lookup_filterKey data
          (fun x => decide (x ∈ allowed ∧ x ∉ dkeys bf.cleaned_data)) k]
      by_cases hka : k ∈ allowed
      · have hkd : k ∉ keysOf data := fun h => hna ⟨hka, h⟩
        rw [if_pos (by simp [hka, hkc])]
        exact (lookup_eq_none_iff _ _).mpr (fun h => hkd ((mem_keysOf _ _).mpr h))
      · rw [if_neg (by simp [hka])]
        rfl
  · intro allow bf data dataB allowed d hkeys hfail
    have hKOf : keysOf data = keysOf dataB := by
      unfold keysOf
      unfold dkeys at hkeys
      rw [hkeys]
    have hu : unknownFields dataB bf.fields allowed =
        unknownFields data bf.fields allowed := by
      unfold unknownFields
      rw [hKOf]
    obtain ⟨hd, hne, hnc⟩ := validatePass_fail_inv _ _ _ _ _ hfail
    unfold validatePass
    rw [if_neg (by rw [hu]; exact hnc), if_neg (by rw [hu]; exact hne)]
    have hfe : buildDetail bf dataB (unknownFields dataB bf.fields allowed) =
        buildDetail bf data (unknownFields data bf.fields allowed) := by
      unfold buildDetail fieldErrorsAll
      rw [hkeys, hu]
    rw [hfe, hd]

/-- Witness for C5 at a concrete input: the tolerated extra key `extra` is
copied through verbatim on success. -/
theorem C5_witness :
    List.lookup "extra"
        (extendCleaned [("name", "a")] [("name", "a"), ("extra", "x")]
          {"extra"}) =
      List.lookup "extra" [("name", "a"), ("extra", "x")] :=
  ((C5_passthrough.1 false
      { fields := ["name"], is_valid := true, cleaned_data := [("name", "a")],
        errors := [], non_field_errors := [] }
      [("name", "a"), ("extra", "x")] {"extra"} _ (by decide)) "extra").2.1
    (by decide) (by decide) (by decide)

theorem ifEmpty (d : Data) : (if d = [] then ([] : Data) else d) = d := by
  by_cases h : d = []
  · rw [if_pos h, h]
  · rw [if_neg h]

theorem mem_unknownFields (data : Data) (ff : List String) (al : Finset String)
    (k : String) :
    k ∈ unknownFields data ff al ↔
      k ∈ keysOf data ∧ k ∉ ff.toFinset ∧ k ∉ al ∧ k ∉ reservedKeys := by
  unfold unknownFields
  simp only [Finset.mem_sdiff, Finset.mem_union, not_or]
  tauto

theorem buildDetail_field_errors_mem (bf : BoundForm) (data : Data)
    (u : Finset String) (fe : List (String × List String))
    (hfe : (buildDetail bf data u).field_errors = some fe)
    (p : String × List String) (hp : p ∈ fe) :
    strStartsWith p.1 "__" = false ∨ (p.1 ∈ dkeys data ∧ p.1 ∈ u) := by
  unfold buildDetail at hfe
  by_cases h0 : fieldErrorsAll bf data u = []
  · rw [if_pos h0] at hfe
    cases hfe
  · rw [if_neg h0] at hfe
    cases hfe
    unfold fieldErrorsAll at hp
    rcases mem_foldl_insert _ _ _ _ hp with h1 | h1
    · unfold fieldErrorsBase at h1
      have h2 := List.mem_filter.mp h1
      left
      simpa using h2.2
    · right
      have h2 := List.mem_filter.mp h1
      exact ⟨h2.1, by simpa using h2.2⟩

theorem buildDetail_errors_nonempty (bf : BoundForm) (data : Data)
    (u : Finset String) (es : List String)
    (hes : (buildDetail bf data u).errors = some es) : es ≠ [] := by
  unfold buildDetail buildDetailErrors at hes
  by_cases h0 : bf.non_field_errors = []
  · rw [if_pos h0] at hes
    cases hes
  · rw [if_neg h0] at hes
    cases hes
    exact h0

/-- C6 counterexample: an unknown input key carrying the internal `__`
marker does appear as a key of `field_errors` — the internal-marker
exclusion applies only to the schema's own error mapping, not to
unknown-field entries. -/
theorem C6_counterexample :
    emptyValidRes.validate_request [("__x", "v")] none =
      .error (400, ErrorDetail.mk none
        (some [("__x", ["This field does not exist."])])) ∧
    strStartsWith "__x" "__" = true := by
  constructor
  · unfold FormResourceCfg.validate_request
    rw [validateAux_none_eq]
    decide
  · decide

/-- C6 as amended: every validate call either returns a cleaned mapping or
fails with exactly status 400 and a detail whose `errors` member, when
present, is a non-empty list of strings, and whose `field_errors` keys
either do not carry the internal `__` marker (entries of the schema's own
error mapping) or are unknown-field entries, hence keys of the input
mapping; the failure is an `Except.error`, never a normal return. -/
theorem C6_failure_shape (res : FormResourceCfg) (data : Data)
    (files : Option Data) (allowed : Finset String) :
    (∃ c, (res.validateAux data files allowed none).outcome = .ok c) ∨
    (∃ d, (res.validateAux data files allowed none).outcome =
        .error (400, d) ∧
      (∀ fe, d.field_errors = some fe → ∀ p, p ∈ fe →
        (strStartsWith p.1 "__" = false ∨ p.1 ∈ keysOf data)) ∧
      (∀ es, d.errors = some es → es ≠ [])) := by
  rw [validateAux_none_eq]
  cases hform : res.form with
  | none =>
    rw [validateTwo_done _ _ _ _ _ _ (validateFrame_none _ _ _ _ hform)]
    exact Or.inl ⟨data, rfl⟩
  | some f =>
    have hfr := validateFrame_some res f data files allowed hform
    rw [ifEmpty] at hfr
    cases hp : validatePass res.allow_unknown_form_fields (f data files)
        data allowed with
    | ok c =>
      rw [validateTwo_done _ _ _ _ _ _ (by rw [hfr, hp])]
      exact Or.inl ⟨c, rfl⟩
    | fail d =>
      rw [validateTwo_done _ _ _ _ _ _ (by rw [hfr, hp])]
      obtain ⟨hd, -, -⟩ := validatePass_fail_inv _ _ _ _ _ hp
      subst hd
      refine Or.inr ⟨_, rfl, ?_, ?_⟩
      · intro fe hfe p hpfe
        rcases buildDetail_field_errors_mem _ _ _ _ hfe _ hpfe with h1 | h1
        · exact Or.inl h1
        · exact Or.inr ((mem_keysOf _ _).mpr h1.1)
      · intro es hes
        exact buildDetail_errors_nonempty _ _ _ _ hes
    | ambiguous =>
      rw [validateTwo_retry _ _ _ _ _ _ _ (by rw [hfr, hp])]
      have hfr2 := validateFrame_some res f
        (dictInsert data "_fake_data" "_fake_data") (some (files.getD []))
        (insert "_fake_data" allowed) hform
      rw [if_neg (dictInsert_ne_nil _ _ _)] at hfr2
      cases hp2 : validatePass res.allow_unknown_form_fields
          (f (dictInsert data "_fake_data" "_fake_data")
            (some (files.getD [])))
          (dictInsert data "_fake_data" "_fake_data")
          (insert "_fake_data" allowed) with
      | ok c =>
        rw [hfr2, hp2]
        exact Or.inl ⟨c, rfl⟩
      | fail d =>
        rw [hfr2, hp2]
        obtain ⟨hd, -, -⟩ := validatePass_fail_inv _ _ _ _ _ hp2
        subst hd
        refine Or.inr ⟨_, rfl, ?_, ?_⟩
        · intro fe hfe p hpfe
          rcases buildDetail_field_errors_mem _ _ _ _ hfe _ hpfe with h1 | h1
          · exact Or.inl h1
          · refine Or.inr ?_
            obtain ⟨hpd, hpu⟩ := h1
            have hku := (mem_unknownFields _ _ _ _).mp hpu
            have hkey : p.1 ∈ keysOf (dictInsert data "_fake_data"
              "_fake_data") := hku.1
            rw [keysOf_dictInsert] at hkey
            rcases Finset.mem_insert.mp hkey with he | hm
            · exfalso
              apply hku.2.2.1
              rw [he]
              exact Finset.mem_insert_self _ _
            · exact hm
        · intro es hes
          exact buildDetail_errors_nonempty _ _ _ _ hes
      | ambiguous =>
        rw [hfr2, hp2]
        refine Or.inr ⟨genericDetail, rfl, ?_, ?_⟩
        · intro fe hfe
          rw [show genericDetail.field_errors = (none :
            Option (List (String × List String))) from rfl] at hfe
          cases hfe
        · intro es hes
          rw [show genericDetail.errors =
            some ["No content was supplied."] from rfl] at hes
          cases hes
          simp

/-- Witness for C6 at a concrete input. -/
theorem C6_witness :
    (∃ c, (emptyValidRes.validateAux [("__x", "v")] none ∅ none).outcome =
      .ok c) ∨
    (∃ d, (emptyValidRes.validateAux [("__x", "v")] none ∅ none).outcome =
        .error (400, d) ∧
      (∀ fe, d.field_errors = some fe → ∀ p, p ∈ fe →
        (strStartsWith p.1 "__" = false ∨ p.1 ∈ keysOf [("__x", "v")])) ∧
      (∀ es, d.errors = some es → es ≠ [])) :=
  C6_failure_shape emptyValidRes [("__x", "v")] none ∅

/-- C8 counterexample: with `fields` unset, discovery `a`, `b`, include
`c`, exclude `a`, the model-field resolution yields `b` and not the
claimed `(discovered ∪ include) − exclude = \x7bb, c\x7d`: the include set
is not applied to model fields (line 330), only to property fields
(line 344). -/
theorem C8_counterexample :
    cx8Res._model_fields_set ≠
      ((({"a", "b"} : Finset String) ∪ {"c"}) \ {"a"}) ∧
    cx8Res._model_fields_set = {"b"} ∧
    cx8Res._property_fields_set = {"b", "c"} := by
  refine ⟨?_, ?_, ?_⟩ <;> decide

/-- C8 as amended: with `fields` unset, the property-field resolution is
`(discovered ∪ include) − exclude`, while the model-field resolution is
`discovered − exclude` with the include set not applied. -/
theorem C8_default_resolution (m : ModelResourceCfg)
    (h : pyTruthy m.fields = false) :
    m._property_fields_set =
      ((m.model.elim ∅ ModelDesc.propertyAttrs).filter
          (fun a => strStartsWith a "_" = false) ∪ m.«include».toFinset) \
        m.exclude.toFinset ∧
    m._model_fields_set =
      (m.model.elim ∅ ModelDesc.field_names) \ m.exclude.toFinset := by
  unfold ModelResourceCfg._property_fields_set ModelResourceCfg._model_fields_set
  rw [h]
  exact ⟨rfl, rfl⟩

/-- Witness for the amended C8 at the concrete instance of the claim. -/
theorem C8_witness :
    cx8Res._property_fields_set =
      ((cx8Res.model.elim ∅ ModelDesc.propertyAttrs).filter
          (fun a => strStartsWith a "_" = false) ∪
        cx8Res.«include».toFinset) \ cx8Res.exclude.toFinset ∧
    cx8Res._model_fields_set =
      (cx8Res.model.elim ∅ ModelDesc.field_names) \
        cx8Res.exclude.toFinset :=
  C8_default_resolution cx8Res (by decide)

/-- C9: with the explicit whitelist set (Python-truthy), both resolutions
are exactly the intersection of the whitelist with the discovered set, so
each is a subset of its discovered set and a name absent from discovery
never appears. -/
theorem C9_whitelist_narrows (m : ModelResourceCfg)
    (h : pyTruthy m.fields = true) :
    m._model_fields_set =
      (m.model.elim ∅ ModelDesc.field_names) ∩ (m.fields.getD []).toFinset ∧
    m._property_fields_set =
      ((m.model.elim ∅ ModelDesc.propertyAttrs).filter
          (fun a => strStartsWith a "_" = false)) ∩
        (m.fields.getD []).toFinset ∧
    m._model_fields_set ⊆ (m.model.elim ∅ ModelDesc.field_names) ∧
    m._property_fields_set ⊆
      ((m.model.elim ∅ ModelDesc.propertyAttrs).filter
        (fun a => strStartsWith a "_" = false)) ∧
    (∀ k, k ∉ (m.model.elim ∅ ModelDesc.field_names) →
      k ∉ m._model_fields_set) ∧
    (∀ k, k ∉ ((m.model.elim ∅ ModelDesc.propertyAttrs).filter
        (fun a => strStartsWith a "_" = false)) →
      k ∉ m._property_fields_set) := by
  unfold ModelResourceCfg._property_fields_set ModelResourceCfg._model_fields_set
  rw [h]
  refine ⟨rfl, rfl, Finset.inter_subset_left, Finset.inter_subset_left,
    ?_, ?_⟩
  · intro k hk hmem
    exact hk (Finset.mem_of_mem_inter_left hmem)
  · intro k hk hmem
    exact hk (Finset.mem_of_mem_inter_left hmem)

/-- Witness for C9 at the concrete instance of the claim: discovery
`a`, `b`, `c` and whitelist `b`, `d` resolve to `\x7bb\x7d`. -/
theorem C9_witness :
    cx9Res._model_fields_set =
      (cx9Res.model.elim ∅ ModelDesc.field_names) ∩
        (cx9Res.fields.getD []).toFinset ∧
    cx9Res._property_fields_set =
      ((cx9Res.model.elim ∅ ModelDesc.propertyAttrs).filter
          (fun a => strStartsWith a "_" = false)) ∩
        (cx9Res.fields.getD []).toFinset ∧
    cx9Res._model_fields_set ⊆ (cx9Res.model.elim ∅ ModelDesc.field_names) ∧
    cx9Res._property_fields_set ⊆
      ((cx9Res.model.elim ∅ ModelDesc.propertyAttrs).filter
        (fun a => strStartsWith a "_" = false)) ∧
    (∀ k, k ∉ (cx9Res.model.elim ∅ ModelDesc.field_names) →
      k ∉ cx9Res._model_fields_set) ∧
    (∀ k, k ∉ ((cx9Res.model.elim ∅ ModelDesc.propertyAttrs).filter
        (fun a => strStartsWith a "_" = false)) →
      k ∉ cx9Res._property_fields_set) :=
  C9_whitelist_narrows cx9Res (by decide)

theorem retry_components (res : FormResourceCfg) (d1 fl : Data)
    (al : Finset String) (bf : BoundForm) (x : Data) :
    (match validateFrame res d1 (some fl) al with
      | FrameOut.done o v => (⟨o, 2, some (v.getD bf), x⟩ : VResult)
      | FrameOut.needsRetry bf2 _ _ =>
        ⟨.error (400, genericDetail), 2, some bf2, x⟩).attempts = 2 ∧
    (match validateFrame res d1 (some fl) al with
      | FrameOut.done o v => (⟨o, 2, some (v.getD bf), x⟩ : VResult)
      | FrameOut.needsRetry bf2 _ _ =>
        ⟨.error (400, genericDetail), 2, some bf2, x⟩).argFinal = x ∧
    ∃ b, (match validateFrame res d1 (some fl) al with
      | FrameOut.done o v => (⟨o, 2, some (v.getD bf), x⟩ : VResult)
      | FrameOut.needsRetry bf2 _ _ =>
        ⟨.error (400, genericDetail), 2, some bf2, x⟩).viewSet = some b := by
  cases validateFrame res d1 (some fl) al <;> exact ⟨rfl, rfl, _, rfl⟩

/-- C10 counterexample: validate does mutate external state.  Line 121
overwrites the view's `bound_form_instance` whenever a form is configured,
and the sentinel retry of line 113 inserts the sentinel key into the
caller's (non-empty) data mapping in place. -/
theorem C10_counterexample :
    applyView freshView
        ((emptyValidRes.validateAux [("a", "1")] none ∅ none).viewSet) ≠
      freshView ∧
    (ambiguousKRes.validateAux [("k", "v")] none ∅ none).argFinal ≠
      [("k", "v")] := by
  constructor
  · rw [validateAux_none_eq]
    decide
  · rw [validateAux_none_eq]
    decide

/-- C10 as amended: the only external mutations of a validate call are the view
assignment and the sentinel insertion.  With no form configured the view
is untouched and the caller's mapping is returned unchanged; the caller's
mapping is either unchanged or extended with exactly the sentinel entry;
a single-attempt call never changes it, an empty mapping is never changed;
and whenever a form is configured the view holds some bound form
afterwards. -/
theorem C10_frame (res : FormResourceCfg) (data : Data) (files : Option Data)
    (allowed : Finset String) :
    (res.form = none →
      (res.validateAux data files allowed none).viewSet = none ∧
      (res.validateAux data files allowed none).argFinal = data) ∧
    ((res.validateAux data files allowed none).argFinal = data ∨
      (res.validateAux data files allowed none).argFinal =
        dictInsert data "_fake_data" "_fake_data") ∧
    ((res.validateAux data files allowed none).attempts = 1 →
      (res.validateAux data files allowed none).argFinal = data) ∧
    (data = [] → (res.validateAux data files allowed none).argFinal = data) ∧
    (∀ f, res.form = some f →
      ∃ bf, (res.validateAux data files allowed none).viewSet = some bf) := by
  rw [validateAux_none_eq]
  cases hform : res.form with
  | none =>
    rw [validateTwo_done _ _ _ _ _ _ (validateFrame_none _ _ _ _ hform)]
    refine ⟨fun _ => ⟨rfl, rfl⟩, Or.inl rfl, fun _ => rfl, fun _ => rfl, ?_⟩
    intro f hf
    exact Option.noConfusion hf
  | some f =>
    have hfr := validateFrame_some res f data files allowed hform
    rw [ifEmpty] at hfr
    cases hp : validatePass res.allow_unknown_form_fields (f data files)
        data allowed with
    | ok c =>
      rw [validateTwo_done _ _ _ _ _ _ (by rw [hfr, hp])]
      exact ⟨fun h => Option.noConfusion h, Or.inl rfl, fun _ => rfl,
        fun _ => rfl, fun _ _ => ⟨f data files, rfl⟩⟩
    | fail d =>
      rw [validateTwo_done _ _ _ _ _ _ (by rw [hfr, hp])]
      exact ⟨fun h => Option.noConfusion h, Or.inl rfl, fun _ => rfl,
        fun _ => rfl, fun _ _ => ⟨f data files, rfl⟩⟩
    | ambiguous =>
      rw [validateTwo_retry _ _ _ _ _ _ _ (by rw [hfr, hp])]
      obtain ⟨hA, hArg, bfv, hV⟩ := retry_components res
        (dictInsert data "_fake_data" "_fake_data") (files.getD [])
        (insert "_fake_data" allowed) (f data files)
        (if data = [] then data else dictInsert data "_fake_data" "_fake_data")
      refine ⟨fun h => Option.noConfusion h, ?_, ?_, ?_, fun _ _ => ⟨bfv, hV⟩⟩
      · rw [hArg]
        by_cases hde : data = []
        · rw [if_pos hde]
          exact Or.inl rfl
        · rw [if_neg hde]
          exact Or.inr rfl
      · rw [hA]
        intro h
        exact absurd h (by decide)
      · intro hde
        rw [hArg, if_pos hde]

/-- Witness for the amended C10 at a concrete input: with a form
configured, the view ends up holding a bound form. -/
theorem C10_witness :
    ∃ bf, (emptyValidRes.validateAux [("a", "1")] none ∅ none).viewSet =
      some bf :=
  (C10_frame emptyValidRes [("a", "1")] none ∅).2.2.2.2
    (fun _ _ => emptyValidForm) rfl
